import Mathlib

/-!
Verification of the QM9 ORCA batch-dispatch orchestrator
(`run_batch_manager.py` / `run_batch_manager_intel.py`) against its
natural-language specification.

The Python code is shallowly embedded: dictionaries become association
lists, the filesystem becomes explicit state (a list of paths, or a
path-to-content map), and side-effecting functions become pure functions
returning an event trace together with their result.
-/

namespace QM9

/-! ## Association lists (model of Python `dict` with string keys) -/

/-- Model of `d[k] = v` on a Python dict modelled as an association list:
update the first binding of `k` if present, else append. -/
def setKey {α : Type} (k : String) (v : α) : List (String × α) → List (String × α)
  | [] => [(k, v)]
  | (k', v') :: rest => if k' = k then (k, v) :: rest else (k', v') :: setKey k v rest

/-- Model of `d.get(k, default)` on a Python dict modelled as an association list. -/
def getKey {α : Type} (k : String) (d : List (String × α)) (default : α) : α :=
  match d.find? (fun kv => kv.1 = k) with
  | some kv => kv.2
  | none => default

/-- Model of `k in d` on a Python dict modelled as an association list. -/
def hasKey {α : Type} (k : String) (d : List (String × α)) : Bool :=
  (d.find? (fun kv => kv.1 = k)).isSome

theorem getKey_setKey_self {α : Type} (k : String) (v : α) (d : List (String × α))
    (default : α) : getKey k (setKey k v d) default = v := by
  induction d with
  | nil => simp [setKey, getKey]
  | cons kv rest ih =>
    obtain ⟨k', v'⟩ := kv
    by_cases h : k' = k
    · simp [setKey, h, getKey]
    · simp only [setKey, if_neg h, getKey, List.find?]
      simp only [getKey] at ih
      simpa [h] using ih

/-! ## String helpers (models of the Python string operations used) -/

/-- Python `str.lower` on one character, for the ASCII range actually used. -/
def lowerChar (c : Char) : Char :=
  if 'A' ≤ c ∧ c ≤ 'Z' then Char.ofNat (c.toNat + 32) else c

/-- Python `s.lower()` (ASCII case folding, character-wise). -/
def pyLower (s : String) : String :=
  String.mk (s.toList.map lowerChar)

/-- Does `hay` start with `pat` (on character lists)? -/
def startsWithL : List Char → List Char → Bool
  | [], _ => true
  | _ :: _, [] => false
  | p :: ps, c :: cs => p = c && startsWithL ps cs

/-- Python `pat in hay` substring test, on character lists. -/
def containsSub (pat : List Char) : List Char → Bool
  | [] => startsWithL pat []
  | c :: cs => startsWithL pat (c :: cs) || containsSub pat cs

/-- Python `pat in hay` substring test on strings. -/
def inStr (pat hay : String) : Bool :=
  containsSub pat.toList hay.toList

/-- Python `f"{n:06d}"` for a non-negative integer: zero-pad to width 6. -/
def pad6 (n : Nat) : String :=
  let s := toString n
  String.mk (List.replicate (6 - s.length) '0') ++ s

/-- Python `str.splitlines()` restricted to `'\n'` separators: split on
newlines, with no trailing empty line when the text ends in a newline. -/
def pySplitlines (s : String) : List String :=
  if s = "" then []
  else
    let parts := s.splitOn "\n"
    if s.endsWith "\n" then parts.dropLast else parts

/-- Python `lines[-25:]`: the last 25 elements (all of them if fewer). -/
def lastN {α : Type} (n : Nat) (l : List α) : List α :=
  l.drop (l.length - n)

/-! ## Configuration constants (module-level constants of `run_batch_manager.py`) -/

def SOURCE_ROOT : String :=
  "/lustre1/g/chem_yangjun/u3651388/osv_mp2_ml_gen/orca2pyscf/source_files"

def WORK_ROOT : String :=
  "/scr/u/u3651388/qm9_reaction_eng/qm9_orca_work/qm9_orca_work_mole"

def CHECKPOINT_FILE : String := WORK_ROOT ++ "/checkpoint.json"

def METHODS : List String := ["mp2", "ccsd", "ccsdt"]

def BASIS : String := "631gs"

/-! ## Checkpoint data model

The checkpoint is a JSON object `mol_id (string) -> (method -> bool)`,
modelled as a nested association list. -/

/-- The checkpoint mapping `{mol_id: {method: bool}}`. -/
abbrev Checkpoint : Type := List (String × List (String × Bool))

/-- The canonical per-molecule source directory `SOURCE_ROOT/dsgdb9nsd_<id:06d>`. -/
def mol_dir (mol_id : Nat) : String :=
  SOURCE_ROOT ++ "/" ++ "dsgdb9nsd_" ++ pad6 mol_id

/-- The canonical output path
`mol_dir/dsgdb9nsd_<id:06d>_<method>_<basis>.out` used by `is_completed`. -/
def out_file_path (mol_id : Nat) (method : String) : String :=
  mol_dir mol_id ++ "/" ++ "dsgdb9nsd_" ++ pad6 mol_id ++ "_" ++ method ++ "_" ++ BASIS ++ ".out"

/-- Python exceptions relevant to this embedding. -/
inductive PyError
  | typeError
  | jsonDecodeError
  deriving DecidableEq, Repr

/-- Function `load_checkpoint` from `run_batch_manager.py`: if the checkpoint file
exists, parse it with `json.load` (whose outcome is the `parsed` argument:
`none` models an unparseable file and raises); otherwise return `{}`.
There is no exception handler in the function. -/
def load_checkpoint (file_exists : Bool) (parsed : Option Checkpoint) :
    Except PyError Checkpoint :=
  if file_exists then
    match parsed with
    | some cp => Except.ok cp
    | none => Except.error PyError.jsonDecodeError
  else
    Except.ok ([] : Checkpoint)

/-- Function `is_completed(mol_id, method, checkpoint)` from `run_batch_manager.py`:
true when the canonical `.out` file exists on disk (the filesystem is
modelled by the list `fs` of existing paths), else
`checkpoint.get(str(mol_id), {}).get(method, False)`. -/
def is_completed (fs : List String) (mol_id : Nat) (method : String)
    (checkpoint : Checkpoint) : Bool :=
  if fs.contains (out_file_path mol_id method) then true
  else getKey method (getKey (toString mol_id) checkpoint []) false

/-! ## `get_cpu_ranges` (identical in `run_batch_manager.py` and
`run_batch_manager_intel.py`) -/

/-- Function `get_cpu_ranges(total_cores, num_slots)`: divide the cores into
`num_slots` contiguous ranges, the last absorbing the remainder; returns
the ranges rendered as `"start-end"` strings and `cores_per_slot`. -/
def get_cpu_ranges (total_cores num_slots : Nat) : List String × Nat :=
  let cores_per_slot := total_cores / num_slots
  let ranges := (List.range num_slots).map (fun i =>
    let start := i * cores_per_slot
    let e := if i = num_slots - 1 then total_cores - 1 else (i + 1) * cores_per_slot - 1
    s!"{start}-{e}")
  (ranges, cores_per_slot)

/-- The numeric bounds `(start, end)` of slot `i` in `get_cpu_ranges`. -/
def slot_bounds (total_cores num_slots i : Nat) : Nat × Nat :=
  (i * (total_cores / num_slots),
   if i = num_slots - 1 then total_cores - 1
   else (i + 1) * (total_cores / num_slots) - 1)

theorem get_cpu_ranges_eq_bounds (t n : Nat) :
    get_cpu_ranges t n =
      ((List.range n).map (fun i =>
        s!"{(slot_bounds t n i).1}-{(slot_bounds t n i).2}"), t / n) := by
  simp [get_cpu_ranges, slot_bounds]

/-! ## The work queue built by `main`

Both `run_batch_manager.py` and `run_batch_manager_intel.py` fill the queue
with the same two loops: `for mol in range(start_id, end_id + 1): for m in
METHODS: q.put((mol, m))`, then one `None` sentinel per worker. -/

/-- The work units enqueued by `main`, in enqueue order. -/
def queueWork (start_id end_id : Nat) : List (Option (Nat × String)) :=
  (List.range' start_id (end_id + 1 - start_id)).flatMap fun mol =>
    METHODS.map fun m => some (mol, m)

/-- The full queue contents: work units followed by one sentinel (`None`,
modelled as `none`) per worker. -/
def buildQueue (start_id end_id concurrency : Nat) : List (Option (Nat × String)) :=
  queueWork start_id end_id ++ List.replicate concurrency none

/-! ## `save_checkpoint` as filesystem operations

`save_checkpoint(checkpoint)` is `open(CHECKPOINT_FILE, 'w')` (which
truncates the persisted path in place) followed by `json.dump(checkpoint,
f, indent=2)` (which writes the serialization to that same path). -/

/-- Serialization `json.dumps` of a `{method: bool}` object with `indent=2`, at nesting
depth one. -/
def json_dumps_inner (m : List (String × Bool)) : String :=
  if m.isEmpty then "\x7b\x7d"
  else
    "\x7b\n" ++
    String.intercalate ",\n"
      (m.map fun kv =>
        "    " ++ "\"" ++ kv.1 ++ "\"" ++ ": " ++ (if kv.2 then "true" else "false")) ++
    "\n  \x7d"

/-- Serialization `json.dumps(checkpoint, indent=2)`: the text written by
`save_checkpoint`. -/
def json_dumps (c : Checkpoint) : String :=
  if c.isEmpty then "\x7b\x7d"
  else
    "\x7b\n" ++
    String.intercalate ",\n"
      (c.map fun kv => "  " ++ "\"" ++ kv.1 ++ "\"" ++ ": " ++ json_dumps_inner kv.2) ++
    "\n\x7d"

theorem json_dumps_ne_empty (c : Checkpoint) : json_dumps c ≠ "" := by
  unfold json_dumps
  by_cases h : c.isEmpty
  · simp [h]
  · simp only [h, if_neg, Bool.false_eq_true, ite_false]
    intro hcontra
    have := congrArg String.length hcontra
    simp [String.length_append] at this
    exact absurd this.1.1 (by decide)

/-- A filesystem operation performed by a checkpoint save. -/
inductive FsOp
  | openTrunc (path : String)
  | writeAll (path : String) (data : String)
  | rename (src : String) (dst : String)
  deriving DecidableEq, Repr

/-- Filesystem contents: path-to-content mapping. -/
abbrev FsState := List (String × String)

/-- Content of path `p` (empty for an absent file, which is also what a
reader of a just-truncated file sees). -/
def readFs (p : String) (st : FsState) : String := getKey p st ""

/-- Effect of one filesystem operation (for `rename`, only the destination
content matters to an observer of the persisted path). -/
def applyOp (st : FsState) : FsOp → FsState
  | FsOp.openTrunc q => setKey q "" st
  | FsOp.writeAll q d => setKey q d st
  | FsOp.rename src dst => setKey dst (readFs src st) st

/-- Every content of path `p` observable before, between and after the
operations `ops`, starting from state `st`. -/
def statesAt (p : String) (st : FsState) (ops : List FsOp) : List String :=
  (ops.scanl applyOp st).map (readFs p)

/-- Function `save_checkpoint(checkpoint)` from `run_batch_manager.py` as the
sequence of filesystem operations it performs: truncate the persisted
checkpoint path in place, then write the serialization to it. -/
def save_checkpoint_ops (c : Checkpoint) : List FsOp :=
  [FsOp.openTrunc CHECKPOINT_FILE, FsOp.writeAll CHECKPOINT_FILE (json_dumps c)]

/-- Modelled from the spec: the atomic checkpoint `save` that §4.3 of the
spec describes (serialize to a temporary location, then atomically replace
the persisted file by rename). Stated only to compare with
`save_checkpoint_ops`, which is what the code actually does. -/
def save_checkpoint_atomic_ops (c : Checkpoint) (tmp : String) : List FsOp :=
  [FsOp.openTrunc tmp, FsOp.writeAll tmp (json_dumps c),
   FsOp.rename tmp CHECKPOINT_FILE]

/-! ## `run_task` of `run_batch_manager.py` as an event trace

The external world (which files exist, whether the `subprocess.run` block
raises, the solver's exit code) is an explicit parameter; `run_task`
becomes a pure function from that world to the event trace it performs and
the resulting checkpoint. -/

/-- Environment facts `run_task` (base variant) consults or ignores. -/
structure TaskWorld where
  /-- Whether `os.path.exists(work_inp)`: the staged input file is present. -/
  inp_exists : Bool
  /-- the `try` block around `subprocess.run` raises an exception. -/
  solver_raises : Bool
  /-- the solver's exit status (never consulted: `check=False`). -/
  solver_exit_code : Nat
  /-- the `timeout 4h` wrapper killed the solver (never consulted). -/
  solver_timed_out : Bool
  /-- Whether `os.path.exists(gbw)` after the run. -/
  gbw_exists : Bool
  /-- Whether `os.path.exists(mkl)` after `orca_2mkl`. -/
  mkl_exists : Bool
  /-- Whether `os.path.exists(work_out)` after the run. -/
  out_exists : Bool

/-- Events performed by `run_task` (base variant), in program order. -/
inductive TEvent
  | skipMissing
  | patchPal
  | createRankfile
  | solverRun
  | execError
  | mklConvert
  | copyMklToFinal
  | copyOutToFinal
  | moveFilesBack
  | removeRankfile
  | checkpointSave (cp : Checkpoint)
  deriving DecidableEq, Repr

/-- Function `run_task(task_info, checkpoint)` from `run_batch_manager.py`: returns
the trace of events it performs and the checkpoint it leaves behind. -/
def run_task (w : TaskWorld) (mol_id : Nat) (method : String)
    (checkpoint : Checkpoint) : List TEvent × Checkpoint :=
  if w.inp_exists = false then ([TEvent.skipMissing], checkpoint)
  else
    let pre := [TEvent.patchPal, TEvent.createRankfile, TEvent.solverRun]
    if w.solver_raises then (pre ++ [TEvent.execError], checkpoint)
    else
      let mklPart :=
        if w.gbw_exists then
          TEvent.mklConvert :: (if w.mkl_exists then [TEvent.copyMklToFinal] else [])
        else []
      let outPart := if w.out_exists then [TEvent.copyOutToFinal] else []
      let mol_key := toString mol_id
      let inner := if hasKey mol_key checkpoint then getKey mol_key checkpoint [] else []
      let cp' := setKey mol_key (setKey method true inner) checkpoint
      (pre ++ mklPart ++ outPart ++
        [TEvent.moveFilesBack, TEvent.removeRankfile, TEvent.checkpointSave cp'],
       cp')

/-! ## `run_task` of `run_batch_manager_intel.py` as an event trace -/

/-- The fixed fatal-error substring list of `run_batch_manager_intel.py`. -/
def error_patterns : List String :=
  ["aborting the run", "Error termination", "The MDCI module", "mdci_state.cpp",
   "orca_mdci_mpi", "not enough slots", "illegal state", "Segmentation fault",
   "Signal: Aborted"]

/-- Environment facts the intel-variant `run_task` consults. -/
structure IntelWorld where
  /-- Whether `os.path.exists(source_inp_path)`. -/
  source_inp_exists : Bool
  /-- the `try` block around `subprocess.run` raises an exception. -/
  solver_raises : Bool
  /-- content of the staged `.out` file after the run (`none` if absent). -/
  out_content : Option String
  /-- Whether `os.path.exists(gbw_file)` after the run. -/
  gbw_exists : Bool
  /-- Whether `os.path.exists(mkl_file)` after `orca_2mkl`. -/
  mkl_exists : Bool
  /-- Value of `time.ctime()` at `.err`-file creation. -/
  timestamp : String

/-- Events performed by the intel-variant `run_task`, in program order. -/
inductive IEvent
  | failMissing
  | copyInput
  | patchPal
  | solverRun
  | execError
  | writeErr (fname : String) (content : String)
  | mklConvert
  | copyOutToFinal
  | copyMklToFinal
  | moveFilesBack
  deriving DecidableEq, Repr

/-- The job basename `dsgdb9nsd_<id:06d>_<method>_<basis>`. -/
def job_basename (mol_id : Nat) (method : String) : String :=
  "dsgdb9nsd_" ++ pad6 mol_id ++ "_" ++ method ++ "_" ++ BASIS

/-- The error scan loop: the first pattern whose lowercase form occurs in
the lowercase output content (the loop breaks at the first match). -/
def scan_first_match (content : String) : Option String :=
  error_patterns.find? (fun pat => inStr (pyLower pat) (pyLower content))

/-- The `err_content` list accumulated on a match: the matched-pattern line,
the separator line, and the last 25 lines of the output. -/
def err_content_lines (content : String) (pat : String) : List String :=
  ["Matched Error: " ++ pat, "\nLast 25 lines:"] ++ lastN 25 (pySplitlines content)

/-- The text written to the `.err` side-file: job line, timestamp line, then
the joined `err_content`. -/
def err_file_text (jb ts : String) (lines : List String) : String :=
  "Job: " ++ jb ++ "\n" ++ "Date: " ++ ts ++ "\n" ++ String.intercalate "\n" lines

/-- Function `run_task(task_info)` from `run_batch_manager_intel.py` as the trace of
events it performs. -/
def run_task_intel (w : IntelWorld) (mol_id : Nat) (method : String) : List IEvent :=
  if w.source_inp_exists = false then [IEvent.failMissing]
  else
    let pre := [IEvent.copyInput, IEvent.patchPal, IEvent.solverRun]
    if w.solver_raises then pre ++ [IEvent.execError]
    else
      let jb := job_basename mol_id method
      let errPart :=
        match w.out_content with
        | some content =>
          match scan_first_match content with
          | some pat =>
            [IEvent.writeErr (jb ++ ".err")
              (err_file_text jb w.timestamp (err_content_lines content pat))]
          | none => []
        | none => []
      let mklPart := if w.gbw_exists then [IEvent.mklConvert] else []
      let outPart := if w.out_content.isSome then [IEvent.copyOutToFinal] else []
      let mklCopyPart := if w.mkl_exists then [IEvent.copyMklToFinal] else []
      pre ++ errPart ++ mklPart ++ outPart ++ mklCopyPart ++ [IEvent.moveFilesBack]

/-! ## `main` of `run_batch_manager.py`

`main` runs `ensure_dirs()`, `load_checkpoint()`, `print_progress(...)` and
then calls `copy_inputs_sequentially(start_id, end_id, checkpoint)` — three
positional arguments against a function defined with exactly two
parameters, which in Python raises `TypeError` before the callee's body
runs; `main` has no exception handler. -/

/-- Parameter count of `def copy_inputs_sequentially(start_id, end_id)`. -/
def copy_inputs_sequentially_arity : Nat := 2

/-- Positional-argument count of `main`'s call
`copy_inputs_sequentially(start_id, end_id, checkpoint)`. -/
def main_copy_inputs_nargs : Nat := 3

/-- Top-level events of `main`, in program order. -/
inductive MEvent
  | ensureDirs
  | progressReport
  | fillQueue
  | startWorkers
  deriving DecidableEq, Repr

/-- Function `main()` of `run_batch_manager.py` with parsed command-line arguments:
returns the trace of top-level events, the queue contents as built (empty
when never reached), and the uncaught exception terminating it, if any. -/
def mainRun (start_id end_id concurrency : Nat)
    (checkpoint_file_exists : Bool) (parsed : Option Checkpoint) :
    List MEvent × List (Option (Nat × String)) × Option PyError :=
  match load_checkpoint checkpoint_file_exists parsed with
  | Except.error e => ([MEvent.ensureDirs], [], some e)
  | Except.ok _cp =>
    if main_copy_inputs_nargs ≠ copy_inputs_sequentially_arity then
      ([MEvent.ensureDirs, MEvent.progressReport], [], some PyError.typeError)
    else
      ([MEvent.ensureDirs, MEvent.progressReport, MEvent.fillQueue, MEvent.startWorkers],
       buildQueue start_id end_id concurrency, none)

/-! ## `%pal` directive patching (step 2/3 of both `run_task` variants) -/

/-- Test `"%pal" in line.lower()` — the line carries a parallelism directive. -/
def hasPal (line : String) : Bool :=
  inStr "%pal" (pyLower line)

/-- The new directive line `f"%pal nprocs {nprocs} end\n"`. -/
def pal_directive (nprocs : Nat) : String :=
  "%pal nprocs " ++ toString nprocs ++ " end\n"

/-- The `%pal`-patching rewrite of both `run_task` variants: write the new
directive first, then every original line not containing `"%pal"`
(case-insensitively), in order. -/
def patch_pal_lines (nprocs : Nat) (lines : List String) : List String :=
  pal_directive nprocs :: lines.filter (fun line => ¬ hasPal line)

/-! ## Helper lemmas -/

theorem contains_eq_true_iff_mem {α : Type} [BEq α] [LawfulBEq α]
    (l : List α) (a : α) : l.contains a = true ↔ a ∈ l := by
  simp [List.contains]

theorem startsWithL_self_append (pat rest : List Char) :
    startsWithL pat (pat ++ rest) = true := by
  induction pat with
  | nil => simp [startsWithL]
  | cons c cs ih => simp [startsWithL, ih]

theorem containsSub_of_startsWithL (pat hay : List Char)
    (h : startsWithL pat hay = true) : containsSub pat hay = true := by
  cases hay with
  | nil => simpa [containsSub] using h
  | cons c cs => simp [containsSub, h]

theorem startsWithL_pal_map (l : List Char) :
    startsWithL ['%', 'p', 'a', 'l']
      (List.map lowerChar ('%' :: 'p' :: 'a' :: 'l' :: l)) = true := by
  have h1 : lowerChar '%' = '%' := by decide
  have h2 : lowerChar 'p' = 'p' := by decide
  have h3 : lowerChar 'a' = 'a' := by decide
  have h4 : lowerChar 'l' = 'l' := by decide
  simp [startsWithL, h1, h2, h3, h4]

theorem hasPal_pal_directive (nprocs : Nat) : hasPal (pal_directive nprocs) = true := by
  unfold hasPal inStr pyLower pal_directive
  apply containsSub_of_startsWithL
  show startsWithL "%pal".toList
      (List.map lowerChar ("%pal nprocs " ++ toString nprocs ++ " end\n").data) = true
  rw [String.data_append, String.data_append,
      show "%pal nprocs ".data = '%' :: 'p' :: 'a' :: 'l' :: " nprocs ".data from by decide,
      List.cons_append, List.cons_append, List.cons_append, List.cons_append]
  exact startsWithL_pal_map _

/-! ## Claims -/

/-- Claim C4: `is_completed(mol_id, method, checkpoint)` is true exactly when
the canonical output file exists on disk or the checkpoint records true for
the pair, the disk check coming first and sufficing on its own; in
particular, with the file on disk and the checkpoint recording `False` for
(id=5, "mp2"), the result is still `True`. -/
theorem claim_C4_is_completed_disk_first :
    (∀ (fs : List String) (mol_id : Nat) (method : String) (cp : Checkpoint),
      is_completed fs mol_id method cp = true ↔
        (out_file_path mol_id method ∈ fs ∨
         getKey method (getKey (toString mol_id) cp []) false = true)) ∧
    is_completed [out_file_path 5 "mp2"] 5 "mp2" [("5", [("mp2", false)])] = true := by
  constructor
  · intro fs mol_id method cp
    unfold is_completed
    by_cases h : out_file_path mol_id method ∈ fs
    · rw [if_pos ((contains_eq_true_iff_mem fs _).mpr h)]
      simp [h]
    · rw [if_neg (fun hc => h ((contains_eq_true_iff_mem fs _).mp hc))]
      simp [h]
  · unfold is_completed
    rw [if_pos ((contains_eq_true_iff_mem _ _).mpr (List.mem_singleton.mpr rfl))]

/-- Claim C10: `load_checkpoint` returns the parsed mapping when the
checkpoint file exists and is valid, the empty mapping when the file is
absent, and raises when the file exists but cannot be parsed; the error is
caught neither in the loader nor in `main`, so a corrupt checkpoint
terminates the batch at startup before any progress report, queueing or
worker start. -/
theorem claim_C10_load_checkpoint :
    (∀ cp : Checkpoint, load_checkpoint true (some cp) = Except.ok cp) ∧
    (∀ parsed, load_checkpoint false parsed = Except.ok ([] : Checkpoint)) ∧
    load_checkpoint true none = Except.error PyError.jsonDecodeError ∧
    (∀ start_id end_id concurrency : Nat,
      mainRun start_id end_id concurrency true none
        = ([MEvent.ensureDirs], [], some PyError.jsonDecodeError)) :=
  ⟨fun _ => rfl, fun _ => rfl, rfl, fun _ _ _ => rfl⟩

/-- Claim C3: with any valid arguments and a loadable checkpoint, `main`
calls `copy_inputs_sequentially(start_id, end_id, checkpoint)` — three
positional arguments against a two-parameter definition — so it terminates
with an uncaught `TypeError` right after the initial progress report,
never filling the queue and never starting a worker. -/
theorem claim_C3_main_type_error (start_id end_id concurrency : Nat)
    (cfe : Bool) (parsed : Option Checkpoint) (cp : Checkpoint)
    (hload : load_checkpoint cfe parsed = Except.ok cp) :
    mainRun start_id end_id concurrency cfe parsed
      = ([MEvent.ensureDirs, MEvent.progressReport], [], some PyError.typeError) ∧
    main_copy_inputs_nargs ≠ copy_inputs_sequentially_arity ∧
    MEvent.fillQueue ∉ (mainRun start_id end_id concurrency cfe parsed).1 ∧
    MEvent.startWorkers ∉ (mainRun start_id end_id concurrency cfe parsed).1 ∧
    (mainRun start_id end_id concurrency cfe parsed).2.1 = [] := by
  have hmain : mainRun start_id end_id concurrency cfe parsed
      = ([MEvent.ensureDirs, MEvent.progressReport], [], some PyError.typeError) := by
    unfold mainRun
    rw [hload]
    rfl
  refine ⟨hmain, by decide, ?_, ?_, ?_⟩ <;> rw [hmain] <;> decide



/-- Claim C3 witness: the concrete instance with an absent checkpoint file
(which loads as the empty mapping). -/
theorem claim_C3_main_type_error_witness :
    mainRun 1 2 4 false none
      = ([MEvent.ensureDirs, MEvent.progressReport], [], some PyError.typeError) ∧
    main_copy_inputs_nargs ≠ copy_inputs_sequentially_arity ∧
    MEvent.fillQueue ∉ (mainRun 1 2 4 false none).1 ∧
    MEvent.startWorkers ∉ (mainRun 1 2 4 false none).1 ∧
    (mainRun 1 2 4 false none).2.1 = [] :=
  claim_C3_main_type_error 1 2 4 false none [] rfl

/-- Claim C1 is false of the code: saving the checkpoint
`{"1": {"mp2": true}}` over a persisted file holding the previous complete
serialization `"{}"`, the persisted path passes through the truncated state
`""`, which is neither the previous nor the new complete serialization —
`save_checkpoint` rewrites the file in place rather than writing a
temporary file and renaming. -/
theorem claim_C1_counterexample :
    ¬ (∀ s ∈ statesAt CHECKPOINT_FILE [(CHECKPOINT_FILE, json_dumps [])]
          (save_checkpoint_ops [("1", [("mp2", true)])]),
        s = readFs CHECKPOINT_FILE [(CHECKPOINT_FILE, json_dumps [])]
          ∨ s = json_dumps [("1", [("mp2", true)])]) := by
  decide

/-- Claim C1 amended: `save_checkpoint` serializes the full mapping and
rewrites the persisted checkpoint path in place (truncate, then write),
using no temporary file and no rename; consequently, whenever the
previously persisted content is non-empty, a reader can observe an
intermediate state of the persisted path — the truncated empty file — that
is neither the previous nor the new complete serialization. -/
theorem claim_C1_amended (c : Checkpoint) (st : FsState)
    (hold : readFs CHECKPOINT_FILE st ≠ "") :
    statesAt CHECKPOINT_FILE st (save_checkpoint_ops c)
      = [readFs CHECKPOINT_FILE st, "", json_dumps c] ∧
    (∀ op ∈ save_checkpoint_ops c, ∀ a b, op ≠ FsOp.rename a b) ∧
    (∃ s ∈ statesAt CHECKPOINT_FILE st (save_checkpoint_ops c),
      s ≠ readFs CHECKPOINT_FILE st ∧ s ≠ json_dumps c) := by
  have hstates : statesAt CHECKPOINT_FILE st (save_checkpoint_ops c)
      = [readFs CHECKPOINT_FILE st, "", json_dumps c] := by
    unfold statesAt save_checkpoint_ops
    simp only [List.scanl_cons, List.scanl_nil, List.map_append, List.map_cons,
      List.map_nil, List.singleton_append, List.cons_append, List.nil_append, applyOp]
    rw [show readFs CHECKPOINT_FILE (setKey CHECKPOINT_FILE "" st) = "" from
          getKey_setKey_self _ _ _ _,
        show readFs CHECKPOINT_FILE
            (setKey CHECKPOINT_FILE (json_dumps c) (setKey CHECKPOINT_FILE "" st))
            = json_dumps c from getKey_setKey_self _ _ _ _]
  refine ⟨hstates, ?_, ?_⟩
  · intro op hop a b
    unfold save_checkpoint_ops at hop
    simp only [List.mem_cons, List.not_mem_nil, or_false] at hop
    rcases hop with rfl | rfl <;> simp
  · refine ⟨"", ?_, fun h => hold h.symm, fun h => json_dumps_ne_empty c h.symm⟩
    rw [hstates]
    simp

/-- Claim C1 amended, witness: the concrete save of `{"1": {"mp2": true}}`
over a previously persisted `"{}"`. -/
theorem claim_C1_amended_witness :
    statesAt CHECKPOINT_FILE [(CHECKPOINT_FILE, json_dumps [])]
        (save_checkpoint_ops [("1", [("mp2", true)])])
      = [readFs CHECKPOINT_FILE [(CHECKPOINT_FILE, json_dumps [])], "",
         json_dumps [("1", [("mp2", true)])]] ∧
    (∀ op ∈ save_checkpoint_ops [("1", [("mp2", true)])], ∀ a b, op ≠ FsOp.rename a b) ∧
    (∃ s ∈ statesAt CHECKPOINT_FILE [(CHECKPOINT_FILE, json_dumps [])]
        (save_checkpoint_ops [("1", [("mp2", true)])]),
      s ≠ readFs CHECKPOINT_FILE [(CHECKPOINT_FILE, json_dumps [])] ∧
      s ≠ json_dumps [("1", [("mp2", true)])]) :=
  claim_C1_amended [("1", [("mp2", true)])] [(CHECKPOINT_FILE, json_dumps [])] (by decide)

/-- Claim C7: the parallelism patch rewrites the staged input to exactly one
new `%pal nprocs <n> end` directive at the top followed by all original
lines not containing `"%pal"` (case-insensitively), unchanged and in their
original order; every original line containing it is removed, so exactly
one line of the patched file carries the directive substring. -/
theorem claim_C7_patch_pal (nprocs : Nat) (lines : List String) :
    (patch_pal_lines nprocs lines).head? = some (pal_directive nprocs) ∧
    (patch_pal_lines nprocs lines).tail = lines.filter (fun line => ¬ hasPal line) ∧
    (∀ line ∈ lines, hasPal line = true → line ∉ (patch_pal_lines nprocs lines).tail) ∧
    (patch_pal_lines nprocs lines).countP (fun line => hasPal line) = 1 := by
  refine ⟨rfl, rfl, ?_, ?_⟩
  · intro line _hline hpal hmem
    have hmem' : line ∈ lines.filter (fun l => ¬ hasPal l) := hmem
    rw [List.mem_filter] at hmem'
    simp [hpal] at hmem'
  · unfold patch_pal_lines
    rw [List.countP_cons_of_pos _ _ (by simpa using hasPal_pal_directive nprocs)]
    have hzero : List.countP (fun line => hasPal line)
        (lines.filter (fun l => ¬ hasPal l)) = 0 := by
      rw [List.countP_eq_zero]
      intro a ha
      rw [List.mem_filter] at ha
      simpa using ha.2
    rw [hzero]

/-- Claim C7 witness: patching a concrete staged input holding one
uppercase `%PAL` directive. -/
theorem claim_C7_patch_pal_witness :
    (patch_pal_lines 8 ["! MP2\n", "%PAL NPROCS 4 END\n", "* xyz\n"]).head?
      = some (pal_directive 8) ∧
    (patch_pal_lines 8 ["! MP2\n", "%PAL NPROCS 4 END\n", "* xyz\n"]).tail
      = ["! MP2\n", "%PAL NPROCS 4 END\n", "* xyz\n"].filter (fun line => ¬ hasPal line) ∧
    (∀ line ∈ ["! MP2\n", "%PAL NPROCS 4 END\n", "* xyz\n"], hasPal line = true →
      line ∉ (patch_pal_lines 8 ["! MP2\n", "%PAL NPROCS 4 END\n", "* xyz\n"]).tail) ∧
    (patch_pal_lines 8 ["! MP2\n", "%PAL NPROCS 4 END\n", "* xyz\n"]).countP
      (fun line => hasPal line) = 1 :=
  claim_C7_patch_pal 8 ["! MP2\n", "%PAL NPROCS 4 END\n", "* xyz\n"]

/-- Claim C8: when the input file is absent at the checked location,
`run_task` only logs a skip and returns: the checkpoint is unchanged, the
solver is not run, nothing is copied or moved, and nothing is saved. -/
theorem claim_C8_skip_missing (w : TaskWorld) (mol_id : Nat) (method : String)
    (cp : Checkpoint) (h : w.inp_exists = false) :
    run_task w mol_id method cp = ([TEvent.skipMissing], cp) ∧
    (run_task w mol_id method cp).2 = cp ∧
    TEvent.solverRun ∉ (run_task w mol_id method cp).1 ∧
    TEvent.copyOutToFinal ∉ (run_task w mol_id method cp).1 ∧
    TEvent.copyMklToFinal ∉ (run_task w mol_id method cp).1 ∧
    TEvent.moveFilesBack ∉ (run_task w mol_id method cp).1 ∧
    (∀ cp' : Checkpoint, TEvent.checkpointSave cp' ∉ (run_task w mol_id method cp).1) := by
  have hr : run_task w mol_id method cp = ([TEvent.skipMissing], cp) := by
    unfold run_task
    rw [h]
    rfl
  rw [hr]
  refine ⟨rfl, rfl, by simp, by simp, by simp, by simp, fun cp' => by simp⟩

/-- Claim C8 witness: the concrete skip for (id=7, method="ccsd") with the
input absent and an empty checkpoint. -/
theorem claim_C8_skip_missing_witness :
    run_task ⟨false, false, 0, false, false, false, false⟩ 7 "ccsd" []
      = ([TEvent.skipMissing], ([] : Checkpoint)) ∧
    (run_task ⟨false, false, 0, false, false, false, false⟩ 7 "ccsd" []).2 = [] ∧
    TEvent.solverRun ∉ (run_task ⟨false, false, 0, false, false, false, false⟩ 7 "ccsd" []).1 ∧
    TEvent.copyOutToFinal
      ∉ (run_task ⟨false, false, 0, false, false, false, false⟩ 7 "ccsd" []).1 ∧
    TEvent.copyMklToFinal
      ∉ (run_task ⟨false, false, 0, false, false, false, false⟩ 7 "ccsd" []).1 ∧
    TEvent.moveFilesBack
      ∉ (run_task ⟨false, false, 0, false, false, false, false⟩ 7 "ccsd" []).1 ∧
    (∀ cp' : Checkpoint, TEvent.checkpointSave cp'
      ∉ (run_task ⟨false, false, 0, false, false, false, false⟩ 7 "ccsd" []).1) :=
  claim_C8_skip_missing ⟨false, false, 0, false, false, false, false⟩ 7 "ccsd" [] rfl

/-- The checkpoint left by a successful `run_task`: the code inserts
`checkpoint[str(mol_id)] = {}` when absent and sets
`checkpoint[str(mol_id)][method] = True`. -/
def run_task_cp (mol_id : Nat) (method : String) (cp : Checkpoint) : Checkpoint :=
  setKey (toString mol_id)
    (setKey method true
      (if hasKey (toString mol_id) cp then getKey (toString mol_id) cp [] else []))
    cp

theorem run_task_success (w : TaskWorld) (mol_id : Nat) (method : String)
    (cp : Checkpoint) (h1 : w.inp_exists = true) (h2 : w.solver_raises = false) :
    run_task w mol_id method cp =
      ([TEvent.patchPal, TEvent.createRankfile, TEvent.solverRun]
        ++ (if w.gbw_exists then
              TEvent.mklConvert ::
                (if w.mkl_exists then [TEvent.copyMklToFinal] else [])
            else [])
        ++ (if w.out_exists then [TEvent.copyOutToFinal] else [])
        ++ [TEvent.moveFilesBack, TEvent.removeRankfile,
            TEvent.checkpointSave (run_task_cp mol_id method cp)],
       run_task_cp mol_id method cp) := by
  unfold run_task run_task_cp
  rw [h1, h2]
  simp

/-- Claim C6: whenever the input is present and no exception escapes the
solver invocation, `run_task` marks `(str(mol_id), method)` true in the
checkpoint and persists it, irrespective of the solver's exit status or a
timeout; and the save is the last event of the trace, strictly after the
format conversion, the aggregation copies, the move of staged files back
and the binding-file deletion. -/
theorem claim_C6_checkpoint_last (w : TaskWorld) (mol_id : Nat) (method : String)
    (cp : Checkpoint) (h1 : w.inp_exists = true) (h2 : w.solver_raises = false) :
    getKey method (getKey (toString mol_id) (run_task w mol_id method cp).2 []) false
      = true ∧
    (∃ pre, (run_task w mol_id method cp).1
        = pre ++ [TEvent.moveFilesBack, TEvent.removeRankfile,
                  TEvent.checkpointSave (run_task w mol_id method cp).2]) ∧
    (run_task w mol_id method cp).1.getLast?
      = some (TEvent.checkpointSave (run_task w mol_id method cp).2) ∧
    (∀ (code : Nat) (timed : Bool),
      run_task { w with solver_exit_code := code, solver_timed_out := timed }
          mol_id method cp = run_task w mol_id method cp) := by
  have h4 : ∀ (code : Nat) (timed : Bool),
      run_task { w with solver_exit_code := code, solver_timed_out := timed }
          mol_id method cp
        = run_task w mol_id method cp := fun _ _ => rfl
  rw [run_task_success w mol_id method cp h1 h2]
  refine ⟨?_, ?_, ?_, fun code timed =>
    (h4 code timed).trans (run_task_success w mol_id method cp h1 h2)⟩
  · rw [show (run_task_cp mol_id method cp) = setKey (toString mol_id)
        (setKey method true
          (if hasKey (toString mol_id) cp then getKey (toString mol_id) cp [] else []))
        cp from rfl,
      getKey_setKey_self, getKey_setKey_self]
  · refine ⟨[TEvent.patchPal, TEvent.createRankfile, TEvent.solverRun]
        ++ (if w.gbw_exists then
              TEvent.mklConvert ::
                (if w.mkl_exists then [TEvent.copyMklToFinal] else [])
            else [])
        ++ (if w.out_exists then [TEvent.copyOutToFinal] else []), ?_⟩
    simp
  · rw [show ([TEvent.patchPal, TEvent.createRankfile, TEvent.solverRun]
        ++ (if w.gbw_exists then
              TEvent.mklConvert ::
                (if w.mkl_exists then [TEvent.copyMklToFinal] else [])
            else [])
        ++ (if w.out_exists then [TEvent.copyOutToFinal] else [])
        ++ [TEvent.moveFilesBack, TEvent.removeRankfile,
            TEvent.checkpointSave (run_task_cp mol_id method cp)])
      = (([TEvent.patchPal, TEvent.createRankfile, TEvent.solverRun]
          ++ (if w.gbw_exists then
                TEvent.mklConvert ::
                  (if w.mkl_exists then [TEvent.copyMklToFinal] else [])
              else [])
          ++ (if w.out_exists then [TEvent.copyOutToFinal] else [])
          ++ [TEvent.moveFilesBack, TEvent.removeRankfile])
         ++ [TEvent.checkpointSave (run_task_cp mol_id method cp)]) from by simp,
      List.getLast?_concat]

/-- Claim C6 witness: a concrete successful unit (id=1, "mp2") with every
artifact present (the exit code and timeout flag are irrelevant). -/
theorem claim_C6_checkpoint_last_witness :
    getKey "mp2" (getKey (toString 1)
        (run_task ⟨true, false, 137, true, true, true, true⟩ 1 "mp2" []).2 []) false
      = true ∧
    (∃ pre, (run_task ⟨true, false, 137, true, true, true, true⟩ 1 "mp2" []).1
        = pre ++ [TEvent.moveFilesBack, TEvent.removeRankfile,
                  TEvent.checkpointSave
                    (run_task ⟨true, false, 137, true, true, true, true⟩ 1 "mp2" []).2]) ∧
    (run_task ⟨true, false, 137, true, true, true, true⟩ 1 "mp2" []).1.getLast?
      = some (TEvent.checkpointSave
          (run_task ⟨true, false, 137, true, true, true, true⟩ 1 "mp2" []).2) ∧
    (∀ (code : Nat) (timed : Bool),
      run_task { (⟨true, false, 137, true, true, true, true⟩ : TaskWorld) with
          solver_exit_code := code, solver_timed_out := timed } 1 "mp2" []
        = run_task ⟨true, false, 137, true, true, true, true⟩ 1 "mp2" []) :=
  claim_C6_checkpoint_last ⟨true, false, 137, true, true, true, true⟩ 1 "mp2" [] rfl rfl

theorem run_task_intel_success (w : IntelWorld) (mol_id : Nat) (method : String)
    (s : String) (h1 : w.source_inp_exists = true) (h2 : w.solver_raises = false)
    (h3 : w.out_content = some s) :
    run_task_intel w mol_id method =
      [IEvent.copyInput, IEvent.patchPal, IEvent.solverRun]
      ++ (match scan_first_match s with
          | some pat =>
            [IEvent.writeErr (job_basename mol_id method ++ ".err")
              (err_file_text (job_basename mol_id method) w.timestamp
                (err_content_lines s pat))]
          | none => [])
      ++ (if w.gbw_exists then [IEvent.mklConvert] else [])
      ++ [IEvent.copyOutToFinal]
      ++ (if w.mkl_exists then [IEvent.copyMklToFinal] else [])
      ++ [IEvent.moveFilesBack] := by
  unfold run_task_intel
  rw [h1, h2, h3]
  simp

/-- Claim C9: after the solver run, if the staged output text contains any
of the fixed fatal-error substrings (case-insensitively), the intel job
runner writes a `<job_basename>.err` side-file whose content is built from
the matched pattern string, the timestamp and the last 25 output lines; if
none match, no `.err` file is written; and in either case the scan gates
nothing that follows — post-processing still runs and the trace still ends
with the file moves. -/
theorem claim_C9_error_scan (w : IntelWorld) (mol_id : Nat) (method : String)
    (s : String) (h1 : w.source_inp_exists = true) (h2 : w.solver_raises = false)
    (h3 : w.out_content = some s) :
    ((∃ pat ∈ error_patterns, inStr (pyLower pat) (pyLower s) = true) →
      ∃ pat, scan_first_match s = some pat ∧ pat ∈ error_patterns ∧
        inStr (pyLower pat) (pyLower s) = true ∧
        IEvent.writeErr (job_basename mol_id method ++ ".err")
            (err_file_text (job_basename mol_id method) w.timestamp
              (err_content_lines s pat))
          ∈ run_task_intel w mol_id method) ∧
    ((∀ pat ∈ error_patterns, inStr (pyLower pat) (pyLower s) = false) →
      ∀ f c, IEvent.writeErr f c ∉ run_task_intel w mol_id method) ∧
    (run_task_intel w mol_id method).getLast? = some IEvent.moveFilesBack ∧
    (IEvent.mklConvert ∈ run_task_intel w mol_id method ↔ w.gbw_exists = true) ∧
    IEvent.copyOutToFinal ∈ run_task_intel w mol_id method := by
  have hrt := run_task_intel_success w mol_id method s h1 h2 h3
  refine ⟨?_, ?_, ?_, ?_, ?_⟩
  · rintro ⟨pat0, hmem0, hmatch0⟩
    have hsome : (scan_first_match s).isSome := by
      unfold scan_first_match
      rw [List.find?_isSome]
      exact ⟨pat0, hmem0, hmatch0⟩
    obtain ⟨pat, hpat⟩ := Option.isSome_iff_exists.mp hsome
    have hpat' : List.find? (fun p => inStr (pyLower p) (pyLower s)) error_patterns
        = some pat := hpat
    refine ⟨pat, hpat, List.mem_of_find?_eq_some hpat',
      by simpa using List.find?_some hpat', ?_⟩
    rw [hrt, hpat]
    simp
  · intro hall f c
    have hnone : scan_first_match s = none := by
      unfold scan_first_match
      rw [List.find?_eq_none]
      intro x hx
      simp [hall x hx]
    rw [hrt, hnone]
    rcases w.gbw_exists <;> rcases w.mkl_exists <;> simp
  · rw [hrt, List.getLast?_append]
    rfl
  · rw [hrt]
    cases hscan : scan_first_match s <;>
      rcases hgbw : w.gbw_exists <;> rcases w.mkl_exists <;> simp [hgbw]
  · rw [hrt]
    simp

/-- Claim C9 witness: a staged output containing "Segmentation fault"
(pattern list hit) with every hypothesis discharged concretely. -/
theorem claim_C9_error_scan_witness :
    ((∃ pat ∈ error_patterns,
        inStr (pyLower pat) (pyLower "x\nSegmentation fault\ny") = true) →
      ∃ pat, scan_first_match "x\nSegmentation fault\ny" = some pat ∧
        pat ∈ error_patterns ∧
        inStr (pyLower pat) (pyLower "x\nSegmentation fault\ny") = true ∧
        IEvent.writeErr (job_basename 5 "mp2" ++ ".err")
            (err_file_text (job_basename 5 "mp2") "TS"
              (err_content_lines "x\nSegmentation fault\ny" pat))
          ∈ run_task_intel
              ⟨true, false, some "x\nSegmentation fault\ny", true, true, "TS"⟩ 5 "mp2") ∧
    ((∀ pat ∈ error_patterns,
        inStr (pyLower pat) (pyLower "x\nSegmentation fault\ny") = false) →
      ∀ f c, IEvent.writeErr f c
        ∉ run_task_intel
            ⟨true, false, some "x\nSegmentation fault\ny", true, true, "TS"⟩ 5 "mp2") ∧
    (run_task_intel ⟨true, false, some "x\nSegmentation fault\ny", true, true, "TS"⟩
        5 "mp2").getLast? = some IEvent.moveFilesBack ∧
    (IEvent.mklConvert
        ∈ run_task_intel ⟨true, false, some "x\nSegmentation fault\ny", true, true, "TS"⟩
            5 "mp2"
      ↔ (true : Bool) = true) ∧
    IEvent.copyOutToFinal
      ∈ run_task_intel ⟨true, false, some "x\nSegmentation fault\ny", true, true, "TS"⟩
          5 "mp2" :=
  claim_C9_error_scan
    ⟨true, false, some "x\nSegmentation fault\ny", true, true, "TS"⟩ 5 "mp2"
    "x\nSegmentation fault\ny" rfl rfl rfl

theorem flatMap_range_intervals (c : Nat) (m : Nat) :
    (List.range m).flatMap (fun i => List.range' (i * c) c) = List.range' 0 (m * c) := by
  induction m with
  | zero => simp
  | succ k ih =>
    rw [List.range_succ, List.flatMap_append, ih, List.flatMap_cons, List.flatMap_nil,
        List.append_nil, Nat.succ_mul]
    have h := List.range'_append_1 0 (k * c) c
    simp only [Nat.zero_add] at h
    rw [h, Nat.add_comm c (k * c)]

theorem slot_bounds_eq_of_ne (t n i : Nat) (h : ¬ i = n - 1) :
    slot_bounds t n i = (i * (t / n), (i + 1) * (t / n) - 1) := by
  unfold slot_bounds
  rw [if_neg h]

theorem slot_bounds_eq_last (t n : Nat) :
    slot_bounds t n (n - 1) = ((n - 1) * (t / n), t - 1) := by
  unfold slot_bounds
  rw [if_pos rfl]

theorem slots_cover (t n : Nat) (h1 : 1 ≤ n) (h2 : n ≤ t) :
    ((List.range n).map (fun i => slot_bounds t n i)).flatMap
      (fun p => List.range' p.1 (p.2 + 1 - p.1)) = List.range t := by
  obtain ⟨k, rfl⟩ : ∃ k, n = k + 1 := ⟨n - 1, by omega⟩
  have hc : 1 ≤ t / (k + 1) := (Nat.one_le_div_iff (by omega)).mpr h2
  have hnc : t / (k + 1) * (k + 1) ≤ t := Nat.div_mul_le_self t (k + 1)
  have hk1 : (k + 1) * (t / (k + 1)) ≤ t := by rw [Nat.mul_comm]; exact hnc
  have hkc : k * (t / (k + 1)) ≤ t :=
    le_trans (Nat.mul_le_mul_right (t / (k + 1)) (by omega)) hk1
  rw [List.flatMap_map, List.range_succ, List.flatMap_append]
  have hcong : (List.range k).flatMap
        (fun i => List.range' (slot_bounds t (k + 1) i).1
          ((slot_bounds t (k + 1) i).2 + 1 - (slot_bounds t (k + 1) i).1))
      = (List.range k).flatMap (fun i => List.range' (i * (t / (k + 1))) (t / (k + 1))) := by
    unfold List.flatMap
    congr 1
    apply List.map_congr_left
    intro i hi
    rw [List.mem_range] at hi
    rw [slot_bounds_eq_of_ne t (k + 1) i (by omega)]
    dsimp only
    congr 1
    rw [show (i + 1) * (t / (k + 1)) = i * (t / (k + 1)) + t / (k + 1) from by ring]
    generalize t / (k + 1) = c at hc ⊢
    omega
  rw [hcong, flatMap_range_intervals, List.flatMap_cons, List.flatMap_nil,
      List.append_nil]
  have hlast : slot_bounds t (k + 1) k = (k * (t / (k + 1)), t - 1) :=
    slot_bounds_eq_last t (k + 1)
  rw [hlast]
  dsimp only
  rw [show t - 1 + 1 - k * (t / (k + 1)) = t - k * (t / (k + 1)) from by
    generalize k * (t / (k + 1)) = x at hkc
    omega]
  have h := List.range'_append_1 0 (k * (t / (k + 1))) (t - k * (t / (k + 1)))
  simp only [Nat.zero_add] at h
  rw [h, Nat.sub_add_cancel hkc]
  exact (List.range_eq_range' t).symm

/-- Claim C2: for `total_cores ≥ num_slots ≥ 1`, `get_cpu_ranges` returns
exactly `num_slots` inclusive `"start-end"` ranges whose underlying
intervals, concatenated in order, are exactly `[0, total_cores)` (hence
contiguous, non-overlapping and gap-free); slot `i < num_slots-1` is
`[i*c, (i+1)*c-1]` with `c = total_cores / num_slots`, the final slot ends
at `total_cores - 1`, the returned `cores_per_slot` is `c`; and
`get_cpu_ranges 32 4 = (["0-7","8-15","16-23","24-31"], 8)`. -/
theorem claim_C2_get_cpu_ranges (t n : Nat) (h1 : 1 ≤ n) (h2 : n ≤ t) :
    (get_cpu_ranges t n).2 = t / n ∧
    (get_cpu_ranges t n).1.length = n ∧
    (∀ i, i < n → (get_cpu_ranges t n).1[i]?
      = some s!"{(slot_bounds t n i).1}-{(slot_bounds t n i).2}") ∧
    (∀ i, i < n - 1 → slot_bounds t n i = (i * (t / n), (i + 1) * (t / n) - 1)) ∧
    slot_bounds t n (n - 1) = ((n - 1) * (t / n), t - 1) ∧
    ((List.range n).map (fun i => slot_bounds t n i)).flatMap
      (fun p => List.range' p.1 (p.2 + 1 - p.1)) = List.range t ∧
    get_cpu_ranges 32 4 = (["0-7", "8-15", "16-23", "24-31"], 8) := by
  refine ⟨rfl, ?_, ?_, ?_, ?_, slots_cover t n h1 h2, by decide⟩
  · rw [get_cpu_ranges_eq_bounds]
    simp
  · intro i hi
    rw [get_cpu_ranges_eq_bounds]
    simp only [List.getElem?_map]
    rw [List.getElem?_range hi]
    rfl
  · intro i hi
    exact slot_bounds_eq_of_ne t n i (by omega)
  · exact slot_bounds_eq_last t n

theorem queueWork_succ (s e : Nat) (h : s ≤ e) :
    queueWork s e = some (s, "mp2") :: some (s, "ccsd") :: some (s, "ccsdt")
      :: queueWork (s + 1) e := by
  unfold queueWork
  rw [show e + 1 - s = (e - s) + 1 from by omega, List.range'_succ,
      show e + 1 - (s + 1) = e - s from by omega]
  simp [METHODS]

theorem mem_queueWork (s e id : Nat) (m : String) :
    some (id, m) ∈ queueWork s e ↔ (s ≤ id ∧ id ≤ e ∧ m ∈ METHODS) := by
  unfold queueWork
  rw [List.mem_flatMap]
  constructor
  · rintro ⟨mol, hmol, hmm⟩
    rw [List.mem_range'_1] at hmol
    rw [List.mem_map] at hmm
    obtain ⟨m', hm', heq⟩ := hmm
    obtain ⟨rfl, rfl⟩ : mol = id ∧ m' = m := by simpa using heq
    exact ⟨hmol.1, by omega, hm'⟩
  · rintro ⟨hs, he, hm⟩
    exact ⟨id, by rw [List.mem_range'_1]; omega, List.mem_map.mpr ⟨m, hm, rfl⟩⟩

theorem queueWork_nodup (s e : Nat) : (queueWork s e).Nodup := by
  unfold queueWork
  rw [List.nodup_flatMap]
  constructor
  · intro mol _
    simp [METHODS]
  · have hnd : (List.range' s (e + 1 - s)).Nodup := List.nodup_range' s (e + 1 - s)
    refine hnd.imp ?_
    intro a b hab
    intro x hx1 hx2
    rw [List.mem_map] at hx1 hx2
    obtain ⟨m1, _, rfl⟩ := hx1
    obtain ⟨m2, _, heq⟩ := hx2
    have hba : b = a ∧ m2 = m1 := by simpa using heq
    exact hab hba.1.symm

theorem none_not_mem_queueWork (s e : Nat) : none ∉ queueWork s e := by
  intro h
  unfold queueWork at h
  rw [List.mem_flatMap] at h
  obtain ⟨mol, _, hmm⟩ := h
  rw [List.mem_map] at hmm
  obtain ⟨m', _, heq⟩ := hmm
  exact Option.noConfusion heq

theorem queueWork_length (s e : Nat) :
    (queueWork s e).length = (e + 1 - s) * 3 := by
  unfold queueWork
  rw [List.length_flatMap]
  have hmap : List.map (List.length ∘ fun mol => List.map (fun m => some (mol, m)) METHODS)
      (List.range' s (e + 1 - s)) = List.map (fun _ => 3) (List.range' s (e + 1 - s)) := by
    apply List.map_congr_left
    intro a _
    simp [METHODS]
  rw [hmap, List.map_const', List.sum_const_nat, List.length_range']

theorem count_eq_one_of_nodup_mem {α : Type} [BEq α] [LawfulBEq α]
    {l : List α} {a : α} (hnd : l.Nodup) (h : a ∈ l) : l.count a = 1 := by
  induction l with
  | nil => simp at h
  | cons x xs ih =>
    rw [List.nodup_cons] at hnd
    rcases List.mem_cons.mp h with rfl | hmem
    · rw [List.count_cons_self, List.count_eq_zero.mpr hnd.1]
    · have hne : a ≠ x := by
        intro hax
        rw [hax] at hmem
        exact hnd.1 hmem
      rw [List.count_cons_of_ne hne xs]
      exact ih hnd.2 hmem

theorem queueWork_getElem_aux (e : Nat) :
    ∀ (d s : Nat), s + d ≤ e →
      (queueWork s e)[3 * d]? = some (some (s + d, "mp2")) ∧
      (queueWork s e)[3 * d + 1]? = some (some (s + d, "ccsd")) ∧
      (queueWork s e)[3 * d + 2]? = some (some (s + d, "ccsdt")) := by
  intro d
  induction d with
  | zero =>
    intro s h
    rw [queueWork_succ s e (by omega)]
    refine ⟨?_, ?_, ?_⟩ <;> simp
  | succ n ih =>
    intro s h
    have ih' := ih (s + 1) (by omega)
    rw [show s + 1 + n = s + (n + 1) from by omega] at ih'
    rw [queueWork_succ s e (by omega)]
    refine ⟨?_, ?_, ?_⟩
    · rw [show 3 * (n + 1) = 3 * n + 1 + 1 + 1 from by ring,
          List.getElem?_cons_succ, List.getElem?_cons_succ, List.getElem?_cons_succ]
      exact ih'.1
    · rw [show 3 * (n + 1) + 1 = 3 * n + 1 + 1 + 1 + 1 from by ring,
          List.getElem?_cons_succ, List.getElem?_cons_succ, List.getElem?_cons_succ]
      exact ih'.2.1
    · rw [show 3 * (n + 1) + 2 = 3 * n + 2 + 1 + 1 + 1 from by ring,
          List.getElem?_cons_succ, List.getElem?_cons_succ, List.getElem?_cons_succ]
      exact ih'.2.2

/-- Claim C5: over a range `[start_id, end_id]` with concurrency `C ≥ 1`,
the driver's queue holds exactly `(end_id - start_id + 1) * 3` work units —
in molecule-id-major order with methods `mp2, ccsd, ccsdt` per molecule —
followed by exactly `C` sentinels; every in-range `(id, method)` pair
appears exactly once, so each unit goes to one worker only and each of the
`C` workers receives exactly one terminating sentinel. -/
theorem claim_C5_queue (start_id end_id concurrency : Nat)
    (h1 : start_id ≤ end_id) (h2 : 1 ≤ concurrency) :
    (queueWork start_id end_id).length = (end_id - start_id + 1) * 3 ∧
    buildQueue start_id end_id concurrency
      = queueWork start_id end_id ++ List.replicate concurrency none ∧
    (∀ id m, start_id ≤ id → id ≤ end_id → m ∈ METHODS →
      (buildQueue start_id end_id concurrency).count (some (id, m)) = 1) ∧
    (∀ id m, some (id, m) ∈ queueWork start_id end_id ↔
      (start_id ≤ id ∧ id ≤ end_id ∧ m ∈ METHODS)) ∧
    (buildQueue start_id end_id concurrency).count none = concurrency ∧
    (∀ id, start_id ≤ id → id ≤ end_id →
      (queueWork start_id end_id)[3 * (id - start_id)]?
          = some (some (id, "mp2")) ∧
      (queueWork start_id end_id)[3 * (id - start_id) + 1]?
          = some (some (id, "ccsd")) ∧
      (queueWork start_id end_id)[3 * (id - start_id) + 2]?
          = some (some (id, "ccsdt"))) := by
  refine ⟨?_, rfl, ?_, fun id m => mem_queueWork start_id end_id id m, ?_, ?_⟩
  · rw [queueWork_length]
    omega
  · intro id m hs he hm
    unfold buildQueue
    rw [List.count_append,
        count_eq_one_of_nodup_mem (queueWork_nodup start_id end_id)
          ((mem_queueWork start_id end_id id m).mpr ⟨hs, he, hm⟩),
        List.count_replicate]
    simp
  · unfold buildQueue
    rw [List.count_append, List.count_replicate_self,
        List.count_eq_zero.mpr (none_not_mem_queueWork start_id end_id)]
    omega
  · intro id hs he
    have := queueWork_getElem_aux end_id (id - start_id) start_id (by omega)
    rw [show start_id + (id - start_id) = id from by omega] at this
    exact this

/-- Claim C5 witness: the documented instance — range `[10, 12]`,
concurrency `2` — yielding 9 work units and 2 sentinels. -/
theorem claim_C5_queue_witness :
    (queueWork 10 12).length = (12 - 10 + 1) * 3 ∧
    buildQueue 10 12 2 = queueWork 10 12 ++ List.replicate 2 none ∧
    (∀ id m, 10 ≤ id → id ≤ 12 → m ∈ METHODS →
      (buildQueue 10 12 2).count (some (id, m)) = 1) ∧
    (∀ id m, some (id, m) ∈ queueWork 10 12 ↔ (10 ≤ id ∧ id ≤ 12 ∧ m ∈ METHODS)) ∧
    (buildQueue 10 12 2).count none = 2 ∧
    (∀ id, 10 ≤ id → id ≤ 12 →
      (queueWork 10 12)[3 * (id - 10)]? = some (some (id, "mp2")) ∧
      (queueWork 10 12)[3 * (id - 10) + 1]? = some (some (id, "ccsd")) ∧
      (queueWork 10 12)[3 * (id - 10) + 2]? = some (some (id, "ccsdt"))) :=
  claim_C5_queue 10 12 2 (by decide) (by decide)

/-- Claim C2 witness: the documented instance `total_cores=32`,
`num_slots=4`. -/
theorem claim_C2_get_cpu_ranges_witness :
    (get_cpu_ranges 32 4).2 = 32 / 4 ∧
    (get_cpu_ranges 32 4).1.length = 4 ∧
    (∀ i, i < 4 → (get_cpu_ranges 32 4).1[i]?
      = some s!"{(slot_bounds 32 4 i).1}-{(slot_bounds 32 4 i).2}") ∧
    (∀ i, i < 4 - 1 → slot_bounds 32 4 i = (i * (32 / 4), (i + 1) * (32 / 4) - 1)) ∧
    slot_bounds 32 4 (4 - 1) = ((4 - 1) * (32 / 4), 32 - 1) ∧
    ((List.range 4).map (fun i => slot_bounds 32 4 i)).flatMap
      (fun p => List.range' p.1 (p.2 + 1 - p.1)) = List.range 32 ∧
    get_cpu_ranges 32 4 = (["0-7", "8-15", "16-23", "24-31"], 8) :=
  claim_C2_get_cpu_ranges 32 4 (by decide) (by decide)

end QM9
